import Mathlib

set_option maxRecDepth 100000
set_option maxHeartbeats 1000000

/-!
Verification of the upload ingestion pipeline of `image-uploader-mvp`
(`src/main.go`), shallowly embedded in Lean 4.

Modelling conventions:
* Byte streams are `List Nat` (each entry a byte value).
* The shared server state (the `./image` directory, the `./thumb` directory
  and the `images` database table) is an explicit `ServerState` record that
  every operation threads through.
* Infrastructure that can only fail for environmental reasons (opening the
  multipart part, filesystem writes, the `SELECT EXISTS` query) is modelled
  as succeeding; failures that are determined by the data are modelled
  faithfully: the single 512-byte `Read` fails exactly on an empty stream
  (it returns `io.EOF`), image decoding is an oracle `Env.decode` over the
  stored bytes, and the database insert fails when a row with the same
  digest is already present (the unique constraint on `sha256sum`; the
  table schema is not part of `src/`, the surrogate key, the server
  timestamp and the unique digest constraint are modelled from the spec).
* A concurrent request that commits an insert between the duplicate check
  (`SELECT EXISTS`, main.go:162) and the insert (main.go:230) is modelled
  by the `interf` argument of `processFile`: those rows become visible to
  the insert but not to the earlier check.  A purely sequential call passes
  `[]`.
* SHA-256 (`crypto/sha256`) and hex encoding (`encoding/hex`) are
  implemented in full; known-answer vectors are proved below.
* `http.DetectContentType` is only consulted for the test
  `filetype == "image/jpeg" || filetype == "image/png"` (main.go:149);
  the sniffing algorithm returns "image/jpeg" exactly when the buffer
  starts with FF D8 FF and "image/png" exactly when it starts with the
  8-byte PNG signature, so the test is embedded as `sniffAllowed`.
* `imaging.Thumbnail(src, 120, 120, CatmullRom)` is `imaging.Fill`: it
  scales and center-crops to exactly the requested width and height
  whenever both source dimensions are positive (and returns an empty image
  otherwise); only the dimensions and encoded format of the thumbnail are
  modelled (`imagingThumbnailDims`).  `imaging.Save` picks the encoder
  from the filename extension (".jpg" encodes JPEG), via `formatFromExt`.
-/

namespace Uploader

/-! ## SHA-256 (crypto/sha256) over byte lists -/

/-- Truncate to a 32-bit word. -/
def w32 (x : Nat) : Nat := x % 4294967296

/-- Rotate a 32-bit word right by `n` (for `x < 2^32`, `n ≤ 32`). -/
def rotr32 (n x : Nat) : Nat := x / 2 ^ n + x % 2 ^ n * 2 ^ (32 - n)

/-- Bitwise choice: `(e ∧ f) ⊕ (¬e ∧ g)`. -/
def ch32 (e f g : Nat) : Nat := (e &&& f) ^^^ ((e ^^^ 4294967295) &&& g)

/-- Bitwise majority of three 32-bit words. -/
def maj32 (a b c : Nat) : Nat := (a &&& b) ^^^ (a &&& c) ^^^ (b &&& c)

/-- Big sigma-0 of the SHA-256 compression function. -/
def bigSigma0 (x : Nat) : Nat := rotr32 2 x ^^^ rotr32 13 x ^^^ rotr32 22 x

/-- Big sigma-1 of the SHA-256 compression function. -/
def bigSigma1 (x : Nat) : Nat := rotr32 6 x ^^^ rotr32 11 x ^^^ rotr32 25 x

/-- Small sigma-0 of the SHA-256 message schedule. -/
def smallSigma0 (x : Nat) : Nat := rotr32 7 x ^^^ rotr32 18 x ^^^ (x / 2 ^ 3)

/-- Small sigma-1 of the SHA-256 message schedule. -/
def smallSigma1 (x : Nat) : Nat := rotr32 17 x ^^^ rotr32 19 x ^^^ (x / 2 ^ 10)

/-- The 64 SHA-256 round constants (FIPS 180-4, written in decimal). -/
def sha256K : List Nat :=
  [1116352408, 1899447441, 3049323471, 3921009573, 961987163, 1508970993,
   2453635748, 2870763221, 3624381080, 310598401, 607225278, 1426881987,
   1925078388, 2162078206, 2614888103, 3248222580, 3835390401, 4022224774,
   264347078, 604807628, 770255983, 1249150122, 1555081692, 1996064986,
   2554220882, 2821834349, 2952996808, 3210313671, 3336571891, 3584528711,
   113926993, 338241895, 666307205, 773529912, 1294757372, 1396182291,
   1695183700, 1986661051, 2177026350, 2456956037, 2730485921, 2820302411,
   3259730800, 3345764771, 3516065817, 3600352804, 4094571909, 275423344,
   430227734, 506948616, 659060556, 883997877, 958139571, 1322822218,
   1537002063, 1747873779, 1955562222, 2024104815, 2227730452, 2361852424,
   2428436474, 2756734187, 3204031479, 3329325298]

/-- Running state of the eight SHA-256 working variables. -/
structure Hash8 where
  a : Nat
  b : Nat
  c : Nat
  d : Nat
  e : Nat
  f : Nat
  g : Nat
  h : Nat
deriving DecidableEq

/-- Initial SHA-256 hash value (FIPS 180-4, written in decimal). -/
def sha256H0 : Hash8 :=
  ⟨1779033703, 3144134277, 1013904242, 2773480762,
   1359893119, 2600822924, 528734635, 1541459225⟩

/-- Group a byte list into big-endian 32-bit words. -/
def toWords : List Nat → List Nat
  | b0 :: b1 :: b2 :: b3 :: rest =>
      (b0 * 2 ^ 24 + b1 * 2 ^ 16 + b2 * 2 ^ 8 + b3) :: toWords rest
  | _ => []

/-- Extend the 16 message words by `k` further schedule words. -/
def extendW (w : List Nat) : Nat → List Nat
  | 0 => w
  | k + 1 =>
      let v := extendW w k
      v ++ [w32 (smallSigma1 (v.getD (k + 14) 0) + v.getD (k + 9) 0 +
                 smallSigma0 (v.getD (k + 1) 0) + v.getD k 0)]

/-- One SHA-256 round, consuming a (round constant, schedule word) pair. -/
def sha256Round (st : Hash8) (kw : Nat × Nat) : Hash8 :=
  let t1 := w32 (st.h + bigSigma1 st.e + ch32 st.e st.f st.g + kw.1 + kw.2)
  let t2 := w32 (bigSigma0 st.a + maj32 st.a st.b st.c)
  ⟨w32 (t1 + t2), st.a, st.b, st.c, w32 (st.d + t1), st.e, st.f, st.g⟩

/-- Compress one 64-byte block into the running hash state. -/
def sha256Block (st : Hash8) (block : List Nat) : Hash8 :=
  let w := extendW (toWords block) 48
  let r := (sha256K.zip w).foldl sha256Round st
  ⟨w32 (st.a + r.a), w32 (st.b + r.b), w32 (st.c + r.c), w32 (st.d + r.d),
   w32 (st.e + r.e), w32 (st.f + r.f), w32 (st.g + r.g), w32 (st.h + r.h)⟩

/-- Split a list into 64-byte chunks; `fuel` bounds the recursion. -/
def toBlocksAux : Nat → List Nat → List (List Nat)
  | 0, _ => []
  | _, [] => []
  | fuel + 1, l => l.take 64 :: toBlocksAux fuel (l.drop 64)

/-- SHA-256 padding: append 0x80, zeros, and the 64-bit big-endian bit length. -/
def sha256Pad (msg : List Nat) : List Nat :=
  let L := msg.length
  let z := (120 - (L + 1) % 64) % 64
  let bl := 8 * L
  msg ++ 128 :: List.replicate z 0 ++
    [bl / 2 ^ 56 % 256, bl / 2 ^ 48 % 256, bl / 2 ^ 40 % 256, bl / 2 ^ 32 % 256,
     bl / 2 ^ 24 % 256, bl / 2 ^ 16 % 256, bl / 2 ^ 8 % 256, bl % 256]

/-- Serialize 32-bit words to big-endian bytes. -/
def wordsToBytes : List Nat → List Nat
  | [] => []
  | x :: rest =>
      x / 2 ^ 24 % 256 :: x / 2 ^ 16 % 256 :: x / 2 ^ 8 % 256 :: x % 256 :: wordsToBytes rest

/-- SHA-256 digest (32 bytes) of a byte list. -/
def sha256 (msg : List Nat) : List Nat :=
  let padded := sha256Pad msg
  let st := (toBlocksAux padded.length padded).foldl sha256Block sha256H0
  wordsToBytes [st.a, st.b, st.c, st.d, st.e, st.f, st.g, st.h]

/-- Lowercase hex digit for a value below 16 (encoding/hex alphabet). -/
def hexDigit (n : Nat) : Char := if n < 10 then Char.ofNat (48 + n) else Char.ofNat (87 + n)

/-- Lowercase hex encoding of a byte list, as characters. -/
def hexEncode : List Nat → List Char
  | [] => []
  | b :: rest => hexDigit (b / 16 % 16) :: hexDigit (b % 16) :: hexEncode rest

/-- Hex-encoded SHA-256 digest of a byte list, as in
`hex.EncodeToString(hash.Sum(nil))` (main.go:159). -/
def sha256hex (msg : List Nat) : String := String.mk (hexEncode (sha256 msg))

/-! ## path/filepath helpers (Go standard library, '/' separator) -/

/-- Scan the characters of a path in reverse order, accumulating the
characters already passed: stop with nothing at a separator, stop with the
accumulated suffix at a dot.  This is the loop of `filepath.Ext`. -/
def extFromRev : List Char → List Char → List Char
  | [], _ => []
  | c :: rest, acc =>
      if c = '/' then []
      else if c = '.' then c :: acc
      else extFromRev rest (c :: acc)

/-- Go `filepath.Ext`: the suffix beginning at the final dot in the final
slash-separated element of the path; empty if there is no dot. -/
def filepathExt (s : String) : String := String.mk (extFromRev s.data.reverse [])

/-- Character is the path separator (Unix build of the Go stdlib). -/
def isSep (c : Char) : Bool := c = '/'

/-- Go `filepath.Base`: strip trailing separators, then take the part after
the last separator; "" gives ".", an all-separator path gives "/". -/
def filepathBase (s : String) : String :=
  if s.data = [] then "." else
  if ((s.data.reverse.dropWhile isSep).takeWhile (fun c => !isSep c)).reverse = [] then "/"
  else String.mk ((s.data.reverse.dropWhile isSep).takeWhile (fun c => !isSep c)).reverse

/-! ## Content classification (net/http DetectContentType, main.go:143-151) -/

/-- JPEG signature of the WHATWG sniffing table used by `DetectContentType`. -/
def jpegSig : List Nat := [0xFF, 0xD8, 0xFF]

/-- PNG signature of the WHATWG sniffing table used by `DetectContentType`. -/
def pngSig : List Nat := [0x89, 0x50, 0x4E, 0x47, 0x0D, 0x0A, 0x1A, 0x0A]

/-- Embeds the test `filetype == "image/jpeg" || filetype == "image/png"`
on the result of `http.DetectContentType(buff)` (main.go:148-149): the
sniffing table yields "image/jpeg" exactly on the FF D8 FF prefix and
"image/png" exactly on the 8-byte PNG signature prefix, and no earlier
rule of the table can produce either string. -/
def sniffAllowed (buff : List Nat) : Bool :=
  jpegSig.isPrefixOf buff || pngSig.isPrefixOf buff

/-- The 512-byte classification buffer: `buff := make([]byte, 512)` followed
by a single `src.Read(buff)` (main.go:143-144).  The read fills at most the
first `min 512 n` bytes and leaves the zero initialisation beyond them; the
whole 512-byte buffer (padding included) is passed to the sniffer. -/
def classifyBuffer (content : List Nat) : List Nat :=
  content.take 512 ++ List.replicate (512 - min 512 content.length) 0

/-! ## Data model -/

/-- One part of the multipart upload: the declared filename and the bytes.
`file.Size` of the Go multipart header is the byte length of the content. -/
structure FileHeader where
  filename : String
  content : List Nat
deriving DecidableEq

/-- One row of the `images` table.  The surrogate key `id` and the
server-assigned `uploadDate` are filled in by the repository on insert
(the schema is not in `src/`; both are modelled from the spec, §3). -/
structure ImageRecord where
  id : Nat
  filename : String
  thumbnailFilename : String
  width : Nat
  height : Nat
  sha256sum : String
  uploadDate : Nat
deriving DecidableEq

/-- A stored thumbnail, abstracted to its pixel dimensions and the encoded
format chosen by `imaging.Save` from the filename extension. -/
structure ThumbImage where
  width : Nat
  height : Nat
  format : String
deriving DecidableEq

/-- The shared durable state: the two flat image directories and the
`images` table.  `nextId` and `now` model the repository-assigned surrogate
key and creation timestamp of the next inserted row. -/
structure ServerState where
  imageDir : List (String × List Nat)
  thumbDir : List (String × ThumbImage)
  images : List ImageRecord
  nextId : Nat
  now : Nat
deriving DecidableEq

/-- Environment of external image-decoding behavior: `decode bytes` is
`some (width, height)` when the bytes decode as an image (`imaging.Open`
and `image.DecodeConfig` consult the same registered decoders over the
same stored bytes), `none` when decoding fails. -/
structure Env where
  decode : List Nat → Option (Nat × Nat)

/-- Lookup of a stored file by name; the head of the list is the most
recently written file, so a rewrite under the same name shadows. -/
def dirLookup : List (String × α) → String → Option α
  | [], _ => none
  | (k, v) :: rest, n => if k = n then some v else dirLookup rest n

/-- Maximum upload size: 40MB (main.go:27). -/
def maxUploadSize : Nat := 40 * 1024 * 1024

/-! ## Pipeline stages (main.go) -/

/-- The filename under which the original is stored:
`filename := sha256sum + filepath.Ext(file.Filename)` (main.go:172). -/
def storedName (f : FileHeader) : String := sha256hex f.content ++ filepathExt f.filename

/-- Go `saveFile` (main.go:189-198): write the validated bytes under the
digest-derived name in the upload directory. -/
def saveFile (s : ServerState) (content : List Nat) (filename : String) : ServerState :=
  { s with imageDir := (filename, content) :: s.imageDir }

/-- Thumbnail filename computation of `generateThumbnail` (main.go:208-209):
take the base of the stored filename, strip its extension, append ".jpg".
Go slices bytes; the sliced-off suffix is exactly the extension, a
well-formed character suffix, so character-level truncation agrees. -/
def thumbNameOf (filename : String) : String :=
  String.mk ((filepathBase filename).data.take
    ((filepathBase filename).data.length -
      (filepathExt (filepathBase filename)).data.length)) ++ ".jpg"

/-- Dimensions produced by `imaging.Thumbnail(src, tw, th, CatmullRom)`,
which is `imaging.Fill`: exactly `tw × th` when both target and source
dimensions are positive, the empty image otherwise. -/
def imagingThumbnailDims (srcW srcH tw th : Nat) : Nat × Nat :=
  if tw = 0 || th = 0 then (0, 0)
  else if srcW = 0 || srcH = 0 then (0, 0)
  else (tw, th)

/-- Encoder selection of `imaging.Save`, keyed on the filename extension;
unsupported extensions make `Save` fail. -/
def formatFromExt (ext : String) : Option String :=
  if ext = ".jpg" then some "jpeg"
  else if ext = ".jpeg" then some "jpeg"
  else if ext = ".png" then some "png"
  else if ext = ".gif" then some "gif"
  else if ext = ".tif" then some "tiff"
  else if ext = ".tiff" then some "tiff"
  else if ext = ".bmp" then some "bmp"
  else none

/-- Go `generateThumbnail` (main.go:200-216): open the stored original,
resample with `imaging.Thumbnail` to the 120×120 box, derive the thumbnail
name from the stored name, and save it (format chosen by extension).
Returns the thumbnail filename and the updated state, or `none` on a
decode/save failure. -/
def generateThumbnail (env : Env) (s : ServerState) (filename : String) :
    Option (String × ServerState) :=
  match (dirLookup s.imageDir filename).bind env.decode with
  | none => none
  | some (w, h) =>
      match formatFromExt (filepathExt (thumbNameOf filename)) with
      | none => none
      | some fmt =>
          some (thumbNameOf filename,
            { s with thumbDir := (thumbNameOf filename,
                ⟨(imagingThumbnailDims w h 120 120).1,
                 (imagingThumbnailDims w h 120 120).2, fmt⟩) :: s.thumbDir })

/-- Go `saveToDatabase` (main.go:218-233): re-open the stored original,
decode its dimensions, and insert the metadata row.  The insert fails when
a row with the same digest is already present (unique constraint on
`sha256sum`, modelled from the spec); on success the repository assigns
the surrogate key and the creation timestamp. -/
def saveToDatabase (env : Env) (s : ServerState)
    (filename thumbnailFilename sha256sum : String) : Option ServerState :=
  match (dirLookup s.imageDir filename).bind env.decode with
  | none => none
  | some (w, h) =>
      if s.images.any (fun r => r.sha256sum == sha256sum) then none
      else some { s with
        images := { id := s.nextId, filename := filename,
                    thumbnailFilename := thumbnailFilename, width := w, height := h,
                    sha256sum := sha256sum, uploadDate := s.now } :: s.images,
        nextId := s.nextId + 1 }

/-- Go `processFile` (main.go:132-187): the per-file pipeline.  Returns the
per-file JSON object (as a key/value list), the HTTP status code, and the
resulting state.  `interf` holds rows committed by concurrent requests
between the duplicate check and the insert (empty for a sequential call). -/
def processFile (env : Env) (file : FileHeader) (s : ServerState)
    (interf : List ImageRecord) : List (String × String) × Nat × ServerState :=
  if file.content.length > maxUploadSize then
    ([("error", "File too large")], 400, s)
  else if file.content = [] then
    ([("error", "Failed to read file")], 500, s)
  else if sniffAllowed (classifyBuffer file.content) = false then
    ([("error", "File type not allowed. Only JPG and PNG are allowed.")], 400, s)
  else
    if s.images.any (fun r => r.sha256sum == sha256hex file.content) then
      ([("error", "File already exists")], 409, s)
    else
      match generateThumbnail env (saveFile s file.content (storedName file)) (storedName file) with
      | none =>
          ([("error", "Failed to generate thumbnail")], 500,
           saveFile s file.content (storedName file))
      | some (tn, s2) =>
          match saveToDatabase env { s2 with images := interf ++ s2.images }
              (storedName file) tn (sha256hex file.content) with
          | none =>
              ([("error", "Failed to save to database")], 500,
               { s2 with images := interf ++ s2.images })
          | some s3 =>
              ([("message", "File uploaded successfully"),
                ("sha256sum", sha256hex file.content)], 200, s3)

/-- Go `uploadHandler` loop (main.go:114-129): process the parts of the
`file` field in order, tag each per-file object with the declared filename,
and stop at the first non-200 status, which becomes the response status. -/
def uploadHandler (env : Env) : List FileHeader → ServerState →
    List (List (String × String)) × Nat × ServerState
  | [], s => ([], 200, s)
  | f :: rest, s =>
      let r := processFile env f s []
      let resp := r.1 ++ [("filename", f.filename)]
      if r.2.1 = 200 then
        let next := uploadHandler env rest r.2.2
        (resp :: next.1, next.2.1, next.2.2)
      else
        ([resp], r.2.1, r.2.2)

/-- Status codes of the files when processed sequentially with no early
stop: the reference run used to state the fail-fast property. -/
def runCodes (env : Env) : List FileHeader → ServerState → List Nat
  | [], _ => []
  | f :: rest, s =>
      let r := processFile env f s []
      r.2.1 :: runCodes env rest r.2.2

/-- State after processing a list of files sequentially with no early stop. -/
def runState (env : Env) : List FileHeader → ServerState → ServerState
  | [], s => s
  | f :: rest, s => runState env rest (processFile env f s []).2.2

/-- Number of metadata rows carrying a given digest. -/
def countDigest (l : List ImageRecord) (d : String) : Nat :=
  (l.filter (fun r => r.sha256sum == d)).length

/-- Key membership in a per-file JSON object. -/
def hasKey (m : List (String × String)) (k : String) : Bool :=
  m.any (fun p => p.1 == k)

/-! ## Gallery reader (main.go:247-286) -/

/-- Row enriched for the view, as scanned by `getRecentImages`:
`filepath.Join("/thumb", name)` and `filepath.Join("/image", name)` reduce
to plain concatenation for the clean digest-derived names involved. -/
structure ImageInfo where
  id : Nat
  filename : String
  thumbnailFilename : String
  width : Nat
  height : Nat
  sha256sum : String
  uploadDate : Nat
  thumbnailPath : String
  imagePath : String
deriving DecidableEq

/-- Scan of one row into the view model (main.go:262-278). -/
def toImageInfo (r : ImageRecord) : ImageInfo :=
  { id := r.id, filename := r.filename, thumbnailFilename := r.thumbnailFilename,
    width := r.width, height := r.height, sha256sum := r.sha256sum,
    uploadDate := r.uploadDate,
    thumbnailPath := "/thumb/" ++ r.thumbnailFilename,
    imagePath := "/image/" ++ r.filename }

/-- Result sets of `SELECT ... ORDER BY upload_date DESC LIMIT n`
(main.go:248-253): the first `n` rows of the table arranged in some order
that is non-increasing in `upload_date`.  SQL imposes no order among rows
with equal `upload_date` (the query has no secondary sort key), so every
such arrangement is a possible result. -/
def queryRecent (table : List ImageRecord) (n : Nat) (out : List ImageRecord) : Prop :=
  ∃ sorted, table.Perm sorted ∧
    sorted.Pairwise (fun a b => b.uploadDate ≤ a.uploadDate) ∧
    out = sorted.take n

/-- Go `getRecentImages(limit)` (main.go:247-286) as a relation between the
table contents and a possible returned list. -/
def getRecentImages (table : List ImageRecord) (n : Nat) (out : List ImageInfo) : Prop :=
  ∃ rows, queryRecent table n rows ∧ out = rows.map toImageInfo

/-! ## Concrete inputs used by witnesses and counterexamples -/

/-- Decode oracle that reports every stored file as a 10×10 image. -/
def env10 : Env := ⟨fun _ => some (10, 10)⟩

/-- Empty server state: empty directories, empty table. -/
def state0 : ServerState := ⟨[], [], [], 1, 7⟩

/-- A tiny input sniffed as JPEG (FF D8 FF prefix), named with a .jpg
extension. -/
def wJpg : FileHeader := ⟨"photo.jpg", [0xFF, 0xD8, 0xFF, 0x10]⟩

/-- The same bytes as `wJpg` under a different declared name. -/
def wJpgRenamed : FileHeader := ⟨"other.png", [0xFF, 0xD8, 0xFF, 0x10]⟩

/-- The same bytes as `wJpg` under a different declared name with the same
extension. -/
def wCopy : FileHeader := ⟨"copy.jpg", [0xFF, 0xD8, 0xFF, 0x10]⟩

/-- A text file renamed to .jpg: sniffed as neither JPEG nor PNG. -/
def wText : FileHeader := ⟨"note.jpg", [97, 98, 99]⟩

/-- An empty uploaded file. -/
def wEmpty : FileHeader := ⟨"empty.jpg", []⟩

/-- An oversize file (40MB + 1 zero bytes). -/
def wBig : FileHeader := ⟨"big.jpg", List.replicate (maxUploadSize + 1) 0⟩

/-- A row committed by a racing request: same digest as `wJpg`. -/
def wRaceRecord : ImageRecord :=
  ⟨99, storedName wJpg, thumbNameOf (storedName wJpg), 10, 10,
   sha256hex wJpg.content, 3⟩

/-- Gallery row with surrogate key 1 at timestamp 5. -/
def recA : ImageRecord := ⟨1, "a.jpg", "a_t.jpg", 10, 10, "da", 5⟩

/-- Gallery row with surrogate key 2 at the same timestamp 5. -/
def recB : ImageRecord := ⟨2, "b.jpg", "b_t.jpg", 10, 10, "db", 5⟩

/-! ## String and path lemmas -/

theorem mk_data (s : String) : String.mk s.data = s := by
  cases s
  rfl

theorem data_append (a b : String) : (a ++ b).data = a.data ++ b.data := rfl

theorem extFromRev_cons_other (c : Char) (rest acc : List Char)
    (h1 : c ≠ '/') (h2 : c ≠ '.') :
    extFromRev (c :: rest) acc = extFromRev rest (c :: acc) := by
  simp [extFromRev, h1, h2]

theorem extFromRev_cons_dot (rest acc : List Char) :
    extFromRev ('.' :: rest) acc = '.' :: acc := by
  simp [extFromRev]

theorem extFromRev_clean_append (l m acc : List Char)
    (h : ∀ c ∈ l, c ≠ '.' ∧ c ≠ '/') :
    extFromRev (l ++ m) acc = extFromRev m (l.reverse ++ acc) := by
  induction l generalizing acc with
  | nil => simp
  | cons c l ih =>
      have hc := h c (by simp)
      rw [List.cons_append, extFromRev_cons_other c _ _ hc.2 hc.1,
        ih _ (fun d hd => h d (by simp [hd]))]
      simp

theorem extFromRev_clean (l acc : List Char) (h : ∀ c ∈ l, c ≠ '.' ∧ c ≠ '/') :
    extFromRev l acc = [] := by
  have h2 := extFromRev_clean_append l [] acc h
  simpa [extFromRev] using h2

theorem extFromRev_shape (l : List Char) :
    ∀ acc, (∀ c ∈ acc, c ≠ '.' ∧ c ≠ '/') →
      extFromRev l acc = [] ∨
      ∃ t, extFromRev l acc = '.' :: t ∧ ∀ c ∈ t, c ≠ '.' ∧ c ≠ '/' := by
  induction l with
  | nil => intro acc _; left; rfl
  | cons c rest ih =>
      intro acc hacc
      by_cases h1 : c = '/'
      · left; simp [extFromRev, h1]
      · by_cases h2 : c = '.'
        · right
          refine ⟨acc, ?_, hacc⟩
          rw [h2, extFromRev_cons_dot]
        · rw [extFromRev_cons_other c rest acc h1 h2]
          refine ih (c :: acc) ?_
          intro d hd
          rcases List.mem_cons.mp hd with rfl | hd2
          · exact ⟨h2, h1⟩
          · exact hacc d hd2

theorem filepathExt_shape (s : String) :
    filepathExt s = "" ∨
    ∃ t, (filepathExt s).data = '.' :: t ∧ ∀ c ∈ t, c ≠ '.' ∧ c ≠ '/' := by
  unfold filepathExt
  rcases extFromRev_shape s.data.reverse [] (by simp) with h | ⟨t, h, ht⟩
  · left; rw [h]
  · right; exact ⟨t, by rw [h], ht⟩

theorem hexDigit_clean : ∀ n, n < 16 → hexDigit n ≠ '.' ∧ hexDigit n ≠ '/' := by decide

theorem hexEncode_clean (bs : List Nat) : ∀ c ∈ hexEncode bs, c ≠ '.' ∧ c ≠ '/' := by
  induction bs with
  | nil => simp [hexEncode]
  | cons b rest ih =>
      intro c hc
      simp only [hexEncode] at hc
      rcases List.mem_cons.mp hc with rfl | hc2
      · exact hexDigit_clean _ (Nat.mod_lt _ (by norm_num))
      · rcases List.mem_cons.mp hc2 with rfl | hc3
        · exact hexDigit_clean _ (Nat.mod_lt _ (by norm_num))
        · exact ih c hc3

theorem sha256hex_clean (m : List Nat) : ∀ c ∈ (sha256hex m).data, c ≠ '.' ∧ c ≠ '/' :=
  fun c hc => hexEncode_clean (sha256 m) c hc

theorem sha256hex_ne_nil (m : List Nat) : (sha256hex m).data ≠ [] := by
  intro h
  exact absurd h (List.cons_ne_nil _ _)

theorem filepathExt_concat (d e : String)
    (hd : ∀ c ∈ d.data, c ≠ '.' ∧ c ≠ '/')
    (he : e = "" ∨ ∃ t, e.data = '.' :: t ∧ ∀ c ∈ t, c ≠ '.' ∧ c ≠ '/') :
    filepathExt (d ++ e) = e := by
  unfold filepathExt
  rw [data_append, List.reverse_append]
  rcases he with rfl | ⟨t, ht, htc⟩
  · rw [show ("" : String).data = [] from rfl]
    simp only [List.reverse_nil, List.nil_append]
    rw [extFromRev_clean _ _ (fun c hc => hd c (List.mem_reverse.mp hc))]
  · rw [ht, List.reverse_cons, List.append_assoc, List.singleton_append,
      extFromRev_clean_append t.reverse _ []
        (fun c hc => htc c (List.mem_reverse.mp hc)),
      extFromRev_cons_dot]
    rw [List.reverse_reverse, List.append_nil, ← ht, mk_data]

theorem takeWhile_all (p : Char → Bool) (l : List Char) (h : ∀ c ∈ l, p c = true) :
    l.takeWhile p = l := by
  induction l with
  | nil => rfl
  | cons c rest ih =>
      rw [List.takeWhile_cons, h c (by simp)]
      simp [ih (fun d hd => h d (by simp [hd]))]

theorem filepathBase_no_sep (s : String) (h0 : s.data ≠ [])
    (h : ∀ c ∈ s.data, c ≠ '/') : filepathBase s = s := by
  unfold filepathBase
  rw [if_neg h0]
  cases hrev : s.data.reverse with
  | nil => exact absurd (by simpa using hrev) h0
  | cons c rest =>
      have hc : c ∈ s.data := by
        rw [← List.mem_reverse, hrev]
        simp
      have hsep : isSep c = false := by simp [isSep, h c hc]
      rw [List.dropWhile_cons, hsep]
      simp only [Bool.false_eq_true, if_false]
      have hall : ∀ d ∈ c :: rest, (fun x => !isSep x) d = true := by
        intro d hd
        have hds : d ∈ s.data := by
          rw [← List.mem_reverse, hrev]
          exact hd
        simp [isSep, h d hds]
      rw [takeWhile_all _ _ hall, ← hrev, List.reverse_reverse]
      rw [if_neg h0, mk_data]

theorem filepathExt_append_jpg (x : String) : filepathExt (x ++ ".jpg") = ".jpg" := by
  unfold filepathExt
  rw [data_append, show (".jpg" : String).data = ['.', 'j', 'p', 'g'] from rfl,
    List.reverse_append]
  rw [show (['.', 'j', 'p', 'g'] : List Char).reverse = ['g', 'p', 'j', '.'] from rfl]
  rw [show (['g', 'p', 'j', '.'] : List Char) ++ x.data.reverse
      = 'g' :: 'p' :: 'j' :: '.' :: x.data.reverse from rfl]
  rw [extFromRev_cons_other _ _ _ (by decide) (by decide),
    extFromRev_cons_other _ _ _ (by decide) (by decide),
    extFromRev_cons_other _ _ _ (by decide) (by decide),
    extFromRev_cons_dot]

theorem filepathExt_thumbNameOf (filename : String) :
    filepathExt (thumbNameOf filename) = ".jpg" := by
  unfold thumbNameOf
  exact filepathExt_append_jpg _

theorem thumbNameOf_storedName (f : FileHeader) :
    thumbNameOf (storedName f) = sha256hex f.content ++ ".jpg" := by
  unfold thumbNameOf storedName
  have hd := sha256hex_clean f.content
  have he := filepathExt_shape f.filename
  have hbase : filepathBase (sha256hex f.content ++ filepathExt f.filename)
      = sha256hex f.content ++ filepathExt f.filename := by
    apply filepathBase_no_sep
    · rw [data_append]
      intro hnil
      exact sha256hex_ne_nil f.content (List.append_eq_nil.mp hnil).1
    · intro c hc
      rw [data_append] at hc
      rcases List.mem_append.mp hc with h | h
      · exact (hd c h).2
      · rcases he with hE | ⟨t, ht, htc⟩
        · rw [hE] at h
          exact absurd h (by simp)
        · rw [ht] at h
          rcases List.mem_cons.mp h with rfl | h2
          · decide
          · exact (htc c h2).2
  rw [hbase, filepathExt_concat _ _ hd he, data_append, List.length_append,
    Nat.add_sub_cancel, List.take_left, mk_data]

/-! ## Pipeline evaluation lemmas -/

theorem dirLookup_cons_self (k : String) (v : α) (l : List (String × α)) :
    dirLookup ((k, v) :: l) k = some v := by
  simp [dirLookup]

theorem generateThumbnail_eval (env : Env) (s : ServerState) (filename : String)
    (content : List Nat) (w h : Nat)
    (hl : dirLookup s.imageDir filename = some content)
    (hd : env.decode content = some (w, h)) :
    generateThumbnail env s filename =
      some (thumbNameOf filename,
        { s with thumbDir := (thumbNameOf filename,
            ⟨(imagingThumbnailDims w h 120 120).1, (imagingThumbnailDims w h 120 120).2,
             "jpeg"⟩) :: s.thumbDir }) := by
  unfold generateThumbnail
  rw [hl, Option.some_bind, hd, filepathExt_thumbNameOf]
  rfl

theorem saveToDatabase_eval (env : Env) (s : ServerState)
    (filename tn sum : String) (content : List Nat) (w h : Nat)
    (hl : dirLookup s.imageDir filename = some content)
    (hd : env.decode content = some (w, h))
    (hc : s.images.any (fun r => r.sha256sum == sum) = false) :
    saveToDatabase env s filename tn sum =
      some { s with
        images := { id := s.nextId, filename := filename, thumbnailFilename := tn,
                    width := w, height := h, sha256sum := sum,
                    uploadDate := s.now } :: s.images,
        nextId := s.nextId + 1 } := by
  unfold saveToDatabase
  rw [hl, Option.some_bind, hd]
  simp only [hc, Bool.false_eq_true, if_false]

theorem saveToDatabase_conflict (env : Env) (s : ServerState)
    (filename tn sum : String) (content : List Nat) (w h : Nat)
    (hl : dirLookup s.imageDir filename = some content)
    (hd : env.decode content = some (w, h))
    (hc : s.images.any (fun r => r.sha256sum == sum) = true) :
    saveToDatabase env s filename tn sum = none := by
  unfold saveToDatabase
  rw [hl, Option.some_bind, hd]
  simp only [hc, if_true]

theorem processFile_ok_eval (env : Env) (f : FileHeader) (s : ServerState)
    (interf : List ImageRecord) (w h : Nat)
    (h1 : f.content.length ≤ maxUploadSize) (h2 : f.content ≠ [])
    (h3 : sniffAllowed (classifyBuffer f.content) = true)
    (h4 : s.images.any (fun r => r.sha256sum == sha256hex f.content) = false)
    (h5 : interf.any (fun r => r.sha256sum == sha256hex f.content) = false)
    (hd : env.decode f.content = some (w, h)) :
    processFile env f s interf =
      ([("message", "File uploaded successfully"), ("sha256sum", sha256hex f.content)], 200,
       { imageDir := (storedName f, f.content) :: s.imageDir,
         thumbDir := (thumbNameOf (storedName f),
            ⟨(imagingThumbnailDims w h 120 120).1, (imagingThumbnailDims w h 120 120).2,
             "jpeg"⟩) :: s.thumbDir,
         images := { id := s.nextId, filename := storedName f,
                     thumbnailFilename := thumbNameOf (storedName f), width := w, height := h,
                     sha256sum := sha256hex f.content,
                     uploadDate := s.now } :: (interf ++ s.images),
         nextId := s.nextId + 1, now := s.now }) := by
  have hg := generateThumbnail_eval env
      { imageDir := (storedName f, f.content) :: s.imageDir, thumbDir := s.thumbDir,
        images := s.images, nextId := s.nextId, now := s.now }
      (storedName f) f.content w h (dirLookup_cons_self _ _ _) hd
  have hdb := saveToDatabase_eval env
      { imageDir := (storedName f, f.content) :: s.imageDir,
        thumbDir := (thumbNameOf (storedName f),
          ⟨(imagingThumbnailDims w h 120 120).1, (imagingThumbnailDims w h 120 120).2,
           "jpeg"⟩) :: s.thumbDir,
        images := interf ++ s.images, nextId := s.nextId, now := s.now }
      (storedName f) (thumbNameOf (storedName f)) (sha256hex f.content) f.content w h
      (dirLookup_cons_self _ _ _) hd (by simp [List.any_append, h4, h5])
  unfold processFile
  rw [if_neg (Nat.not_lt.mpr h1), if_neg h2, if_neg (by rw [h3]; simp)]
  simp only [h4, Bool.false_eq_true, if_false, saveFile, hg, hdb]

theorem generateThumbnail_some (env : Env) (s : ServerState) (filename : String)
    (content : List Nat) (tn : String) (s2 : ServerState)
    (hl : dirLookup s.imageDir filename = some content)
    (hg : generateThumbnail env s filename = some (tn, s2)) :
    (∃ w hh, env.decode content = some (w, hh)) ∧ s2.imageDir = s.imageDir := by
  unfold generateThumbnail at hg
  rw [hl, Option.some_bind] at hg
  cases hdec : env.decode content with
  | none => rw [hdec] at hg; simp at hg
  | some wh =>
      obtain ⟨w, hh⟩ := wh
      rw [hdec] at hg
      simp only [filepathExt_thumbNameOf,
        show formatFromExt ".jpg" = some "jpeg" from rfl,
        Option.some.injEq, Prod.mk.injEq] at hg
      exact ⟨⟨w, hh, rfl⟩, by rw [← hg.2]⟩

theorem processFile_200 (env : Env) (f : FileHeader) (s : ServerState)
    (interf : List ImageRecord)
    (h : (processFile env f s interf).2.1 = 200) :
    f.content.length ≤ maxUploadSize ∧ f.content ≠ [] ∧
    sniffAllowed (classifyBuffer f.content) = true ∧
    s.images.any (fun r => r.sha256sum == sha256hex f.content) = false ∧
    interf.any (fun r => r.sha256sum == sha256hex f.content) = false ∧
    ∃ w hh, env.decode f.content = some (w, hh) := by
  unfold processFile at h
  split_ifs at h with c1 c2 c3 c4
  · simp at h
  · simp at h
  · simp at h
  · simp at h
  · cases hg : generateThumbnail env (saveFile s f.content (storedName f)) (storedName f) with
    | none => rw [hg] at h; simp at h
    | some p =>
        obtain ⟨tn, s2⟩ := p
        have hinv := generateThumbnail_some env _ _ f.content tn s2
          (dirLookup_cons_self _ _ _) hg
        obtain ⟨⟨w, hh, hdec⟩, hs2⟩ := hinv
        rw [hg] at h
        dsimp only at h
        refine ⟨Nat.not_lt.mp c1, c2, by simpa using c3, by simpa using c4, ?_, w, hh, hdec⟩
        by_contra hi
        rw [Bool.not_eq_false] at hi
        have hlook : dirLookup s2.imageDir (storedName f) = some f.content := by
          rw [hs2]
          exact dirLookup_cons_self _ _ _
        rw [saveToDatabase_conflict env { s2 with images := interf ++ s2.images }
          (storedName f) tn (sha256hex f.content) f.content w hh hlook hdec
          (by simp [List.any_append, hi])] at h
        simp at h

theorem processFile_200_resp (env : Env) (f : FileHeader) (s : ServerState)
    (interf : List ImageRecord)
    (h : (processFile env f s interf).2.1 = 200) :
    (processFile env f s interf).1 =
      [("message", "File uploaded successfully"), ("sha256sum", sha256hex f.content)] := by
  obtain ⟨h1, h2, h3, h4, h5, w, hh, hd⟩ := processFile_200 env f s interf h
  rw [processFile_ok_eval env f s interf w hh h1 h2 h3 h4 h5 hd]

theorem filter_digest_nil (l : List ImageRecord) (d : String)
    (h : l.any (fun r => r.sha256sum == d) = false) :
    l.filter (fun r => r.sha256sum == d) = [] := by
  induction l with
  | nil => rfl
  | cons r rest ih =>
      rw [List.any_cons, Bool.or_eq_false_iff] at h
      rw [List.filter_cons, h.1]
      simpa using ih h.2

/-! ## Handler unfolding lemmas -/

theorem uploadHandler_nil (env : Env) (s : ServerState) :
    uploadHandler env [] s = ([], 200, s) := rfl

theorem uploadHandler_cons (env : Env) (f : FileHeader) (rest : List FileHeader)
    (s : ServerState) :
    uploadHandler env (f :: rest) s =
      if (processFile env f s []).2.1 = 200 then
        (((processFile env f s []).1 ++ [("filename", f.filename)]) ::
            (uploadHandler env rest (processFile env f s []).2.2).1,
         (uploadHandler env rest (processFile env f s []).2.2).2.1,
         (uploadHandler env rest (processFile env f s []).2.2).2.2)
      else
        ([(processFile env f s []).1 ++ [("filename", f.filename)]],
         (processFile env f s []).2.1, (processFile env f s []).2.2) := rfl

theorem runCodes_cons (env : Env) (f : FileHeader) (rest : List FileHeader)
    (s : ServerState) :
    runCodes env (f :: rest) s =
      (processFile env f s []).2.1 :: runCodes env rest (processFile env f s []).2.2 := rfl

theorem uploadHandler_status (env : Env) (files : List FileHeader) (s : ServerState) :
    (uploadHandler env files s).2.1 = 200 ↔
      (runCodes env files s).all (fun c => c == 200) = true := by
  induction files generalizing s with
  | nil => simp [uploadHandler, runCodes]
  | cons f rest ih =>
      rw [uploadHandler_cons, runCodes_cons]
      by_cases hc : (processFile env f s []).2.1 = 200
      · rw [if_pos hc]
        simp only [List.all_cons, hc, beq_self_eq_true, Bool.true_and]
        exact ih _
      · rw [if_neg hc]
        simp only [List.all_cons]
        constructor
        · intro h; exact absurd h hc
        · intro h
          rw [Bool.and_eq_true] at h
          exact absurd (beq_iff_eq.mp h.1) hc

theorem uploadHandler_failfast_aux (env : Env) (pre : List FileHeader)
    (f : FileHeader) (rest : List FileHeader) (s : ServerState)
    (hok : (runCodes env pre s).all (fun c => c == 200) = true)
    (hf : (processFile env f (runState env pre s) []).2.1 ≠ 200) :
    uploadHandler env (pre ++ f :: rest) s = uploadHandler env (pre ++ [f]) s ∧
    (uploadHandler env (pre ++ f :: rest) s).2.1 =
      (processFile env f (runState env pre s) []).2.1 ∧
    (uploadHandler env (pre ++ f :: rest) s).1.length = pre.length + 1 := by
  induction pre generalizing s with
  | nil =>
      have hf0 : (processFile env f s []).2.1 ≠ 200 := hf
      rw [List.nil_append, uploadHandler_cons, if_neg hf0,
        show ([] : List FileHeader) ++ [f] = [f] from rfl,
        uploadHandler_cons, if_neg hf0]
      exact ⟨rfl, rfl, rfl⟩
  | cons p pre' ih =>
      rw [runCodes_cons, List.all_cons, Bool.and_eq_true] at hok
      have h1 : (processFile env p s []).2.1 = 200 := beq_iff_eq.mp hok.1
      have hf' : (processFile env f (runState env pre'
          (processFile env p s []).2.2) []).2.1 ≠ 200 := hf
      obtain ⟨e1, e2, e3⟩ := ih (processFile env p s []).2.2 hok.2 hf'
      rw [List.cons_append, uploadHandler_cons, if_pos h1,
        List.cons_append, uploadHandler_cons, if_pos h1]
      refine ⟨by rw [e1], e2, ?_⟩
      simp only [List.length_cons, e3, List.length_cons]

theorem processFile_resp_cases (env : Env) (f : FileHeader) (s : ServerState)
    (interf : List ImageRecord) :
    (∃ m, (processFile env f s interf).1 = [("error", m)]) ∨
    (processFile env f s interf).1 =
      [("message", "File uploaded successfully"), ("sha256sum", sha256hex f.content)] := by
  unfold processFile
  split_ifs
  · exact Or.inl ⟨_, rfl⟩
  · exact Or.inl ⟨_, rfl⟩
  · exact Or.inl ⟨_, rfl⟩
  · exact Or.inl ⟨_, rfl⟩
  · split
    · exact Or.inl ⟨_, rfl⟩
    · split
      · exact Or.inl ⟨_, rfl⟩
      · exact Or.inr rfl

/-! ## SHA-256 known-answer vectors (FIPS 180-4 examples) -/

theorem sha256hex_empty_vector :
    sha256hex [] = "e3b0c44298fc1c149afbf4c8996fb92427ae41e4649b934ca495991b7852b855" := by
  decide

theorem sha256hex_abc_vector :
    sha256hex [97, 98, 99] =
      "ba7816bf8f01cfea414140de5dae2223b00361a396177a9cb410ff61f20015ad" := by
  decide

/-! ## Claim theorems -/

/-- C1: after a successful upload, uploading the same bytes again returns
the duplicate-conflict response with HTTP status 409, creates no new file
and no new metadata record (the state is unchanged), and the metadata
count for that digest remains exactly 1. -/
theorem upload_twice_duplicate_409 (env : Env) (f g : FileHeader) (s : ServerState)
    (hg : g.content = f.content)
    (h200 : (processFile env f s []).2.1 = 200) :
    processFile env g ((processFile env f s []).2.2) [] =
      ([("error", "File already exists")], 409, (processFile env f s []).2.2) ∧
    countDigest ((processFile env f s []).2.2).images (sha256hex f.content) = 1 := by
  obtain ⟨h1, h2, h3, h4, h5, w, hh, hd⟩ := processFile_200 env f s [] h200
  rw [processFile_ok_eval env f s [] w hh h1 h2 h3 h4 h5 hd]
  constructor
  · unfold processFile
    rw [hg]
    rw [if_neg (Nat.not_lt.mpr h1), if_neg h2, if_neg (by rw [h3]; simp)]
    rw [if_pos (by simp)]
  · unfold countDigest
    dsimp only
    rw [List.nil_append, List.filter_cons]
    simp only [beq_self_eq_true, if_true]
    rw [filter_digest_nil s.images _ h4]
    rfl

theorem upload_twice_duplicate_409_witness :
    (processFile env10 wJpgRenamed ((processFile env10 wJpg state0 []).2.2) []).2.1 = 409 ∧
    countDigest ((processFile env10 wJpg state0 []).2.2).images (sha256hex wJpg.content) = 1 := by
  have h := upload_twice_duplicate_409 env10 wJpg wJpgRenamed state0 rfl (by decide)
  exact ⟨by rw [h.1], h.2⟩

/-- C2 counterexample: when the duplicate check passes but a racing request
commits a row with the same digest before the insert, the insert fails on
the uniqueness constraint and `processFile` returns the generic 500
"Failed to save to database", not the 409 duplicate-conflict result. -/
theorem race_insert_conflict_returns_500 :
    (processFile env10 wJpg state0 [wRaceRecord]).1 =
      [("error", "Failed to save to database")] ∧
    (processFile env10 wJpg state0 [wRaceRecord]).2.1 = 500 ∧
    (processFile env10 wJpg state0 [wRaceRecord]).2.1 ≠ 409 := by
  decide

/-- C2 amended: a digest-uniqueness conflict at insert time (after the
duplicate check passed) is reported as an internal error: the per-file
result is `{"error": "Failed to save to database"}` with HTTP status 500,
unlike the pre-detected duplicate which yields 409. -/
theorem race_insert_conflict_500 (env : Env) (f : FileHeader) (s : ServerState)
    (interf : List ImageRecord) (w h : Nat)
    (h1 : f.content.length ≤ maxUploadSize) (h2 : f.content ≠ [])
    (h3 : sniffAllowed (classifyBuffer f.content) = true)
    (h4 : s.images.any (fun r => r.sha256sum == sha256hex f.content) = false)
    (hd : env.decode f.content = some (w, h))
    (h5 : interf.any (fun r => r.sha256sum == sha256hex f.content) = true) :
    (processFile env f s interf).1 = [("error", "Failed to save to database")] ∧
    (processFile env f s interf).2.1 = 500 := by
  have hgt := generateThumbnail_eval env
      { imageDir := (storedName f, f.content) :: s.imageDir, thumbDir := s.thumbDir,
        images := s.images, nextId := s.nextId, now := s.now }
      (storedName f) f.content w h (dirLookup_cons_self _ _ _) hd
  have hdb := saveToDatabase_conflict env
      { imageDir := (storedName f, f.content) :: s.imageDir,
        thumbDir := (thumbNameOf (storedName f),
          ⟨(imagingThumbnailDims w h 120 120).1, (imagingThumbnailDims w h 120 120).2,
           "jpeg"⟩) :: s.thumbDir,
        images := interf ++ s.images, nextId := s.nextId, now := s.now }
      (storedName f) (thumbNameOf (storedName f)) (sha256hex f.content) f.content w h
      (dirLookup_cons_self _ _ _) hd (by simp [List.any_append, h5])
  unfold processFile
  rw [if_neg (Nat.not_lt.mpr h1), if_neg h2, if_neg (by rw [h3]; simp)]
  simp only [h4, Bool.false_eq_true, if_false, saveFile, hgt, hdb]
  exact ⟨trivial, trivial⟩

theorem race_insert_conflict_500_witness :
    (processFile env10 wJpg state0 [wRaceRecord]).2.1 = 500 :=
  (race_insert_conflict_500 env10 wJpg state0 [wRaceRecord] 10 10 (by decide) (by decide)
    (by decide) (by decide) (by decide) (by decide)).2

/-- C3: files of a batch are processed sequentially in presentation order;
the overall status is 200 exactly when every file succeeds, and otherwise
it is the status of the first non-success result: the handler's output on
the full list equals its output on the list truncated after the first
failing file (no later file is processed), and exactly one response object
exists per processed file. -/
theorem batch_failfast (env : Env) (files : List FileHeader) (s : ServerState) :
    ((uploadHandler env files s).2.1 = 200 ↔
      (runCodes env files s).all (fun c => c == 200) = true) ∧
    ∀ pre f rest, files = pre ++ f :: rest →
      (runCodes env pre s).all (fun c => c == 200) = true →
      (processFile env f (runState env pre s) []).2.1 ≠ 200 →
      uploadHandler env files s = uploadHandler env (pre ++ [f]) s ∧
      (uploadHandler env files s).2.1 =
        (processFile env f (runState env pre s) []).2.1 ∧
      (uploadHandler env files s).1.length = pre.length + 1 := by
  refine ⟨uploadHandler_status env files s, ?_⟩
  intro pre f rest hsplit hok hf
  subst hsplit
  exact uploadHandler_failfast_aux env pre f rest s hok hf

theorem batch_failfast_witness :
    (uploadHandler env10 [wJpg, wJpgRenamed] state0).2.1 = 409 ∧
    (uploadHandler env10 [wJpg, wJpgRenamed] state0).1.length = 2 := by
  have h := (batch_failfast env10 [wJpg, wJpgRenamed] state0).2 [wJpg] wJpgRenamed [] rfl
    (by decide) (by decide)
  refine ⟨?_, ?_⟩
  · rw [h.2.1]; decide
  · rw [h.2.2]
    rfl

/-- C4: an oversize input is rejected with 400 before any I/O (the result
depends on nothing but the length), and an input sniffed as neither JPEG
nor PNG is rejected with 400; in both cases the state is returned
unchanged: no file is written to either directory and no row is
inserted. -/
theorem reject_writes_nothing (env : Env) (f : FileHeader) (s : ServerState)
    (interf : List ImageRecord) :
    (f.content.length > maxUploadSize →
      processFile env f s interf = ([("error", "File too large")], 400, s)) ∧
    (f.content.length ≤ maxUploadSize → f.content ≠ [] →
      sniffAllowed (classifyBuffer f.content) = false →
      processFile env f s interf =
        ([("error", "File type not allowed. Only JPG and PNG are allowed.")], 400, s)) := by
  constructor
  · intro h
    unfold processFile
    rw [if_pos h]
  · intro h1 h2 h3
    unfold processFile
    rw [if_neg (Nat.not_lt.mpr h1), if_neg h2, if_pos h3]

theorem reject_writes_nothing_witness :
    processFile env10 wBig state0 [] = ([("error", "File too large")], 400, state0) ∧
    processFile env10 wText state0 [] =
      ([("error", "File type not allowed. Only JPG and PNG are allowed.")], 400, state0) :=
  ⟨(reject_writes_nothing env10 wBig state0 []).1
      (by rw [show wBig.content = List.replicate (maxUploadSize + 1) 0 from rfl,
              List.length_replicate]; omega),
   (reject_writes_nothing env10 wText state0 []).2 (by decide) (by decide) (by decide)⟩

/-- C5 counterexample: two uploads of identical bytes under different
declared filenames ("photo.jpg" and "other.png") store the original under
different names — the extension of the stored filename is taken from the
user-supplied name. -/
theorem storedName_uses_user_extension :
    wJpg.content = wJpgRenamed.content ∧
    (processFile env10 wJpg state0 []).2.2.imageDir.map Prod.fst ≠
      (processFile env10 wJpgRenamed state0 []).2.2.imageDir.map Prod.fst := by
  decide

/-- C5 amended: the stored filename is the digest plus the extension taken
from the user-supplied filename (so the extension, and only the extension,
is user-influenced): identical bytes with identical extensions give
identical stored names; the thumbnail filename is the digest plus the
fixed ".jpg" — fully determined by the content, independent of the
declared filename. -/
theorem filenames_digest_determined (env env2 : Env) (f g : FileHeader)
    (s s2 : ServerState) (interf interf2 : List ImageRecord)
    (hc : g.content = f.content)
    (he : filepathExt g.filename = filepathExt f.filename)
    (h1 : (processFile env f s interf).2.1 = 200)
    (h2 : (processFile env2 g s2 interf2).2.1 = 200) :
    storedName g = storedName f ∧
    (processFile env f s interf).2.2.imageDir.head?.map Prod.fst =
      some (storedName f) ∧
    (processFile env2 g s2 interf2).2.2.imageDir.head?.map Prod.fst =
      some (storedName f) ∧
    (processFile env f s interf).2.2.thumbDir.head?.map Prod.fst =
      some (sha256hex f.content ++ ".jpg") ∧
    (processFile env2 g s2 interf2).2.2.thumbDir.head?.map Prod.fst =
      some (sha256hex f.content ++ ".jpg") := by
  have hsn : storedName g = storedName f := by
    unfold storedName
    rw [hc, he]
  obtain ⟨a1, a2, a3, a4, a5, w, hh, hd⟩ := processFile_200 env f s interf h1
  obtain ⟨b1, b2, b3, b4, b5, w2, hh2, hd2⟩ := processFile_200 env2 g s2 interf2 h2
  rw [processFile_ok_eval env f s interf w hh a1 a2 a3 a4 a5 hd,
    processFile_ok_eval env2 g s2 interf2 w2 hh2 b1 b2 b3 b4 b5 hd2]
  refine ⟨hsn, rfl, by simp [hsn], ?_, ?_⟩
  · simp [thumbNameOf_storedName]
  · simp [thumbNameOf_storedName, hsn, hc]

theorem filenames_digest_determined_witness :
    (processFile env10 wJpg state0 []).2.2.thumbDir.head?.map Prod.fst =
      some (sha256hex wJpg.content ++ ".jpg") ∧
    (processFile env10 wCopy state0 []).2.2.thumbDir.head?.map Prod.fst =
      some (sha256hex wJpg.content ++ ".jpg") := by
  have h := filenames_digest_determined env10 env10 wJpg wCopy state0 state0 [] []
    rfl rfl (by decide) (by decide)
  exact ⟨h.2.2.2.1, h.2.2.2.2⟩

/-- C6 counterexample: a 10×10 input does not stay 10×10 — the stored
thumbnail is 120×120 (`imaging.Thumbnail` scales up and crops to fill the
box). -/
theorem thumbnail_10x10_becomes_120x120 :
    env10.decode wJpg.content = some (10, 10) ∧
    (processFile env10 wJpg state0 []).2.2.thumbDir.head?.map
        (fun p => (p.2.width, p.2.height)) = some (120, 120) := by
  decide

/-- C6 amended: for every successfully processed upload whose original
decodes with positive dimensions, the stored thumbnail is exactly 120×120
(scale-and-crop-to-fill, not fit-within-box), encoded as JPEG, and named
with the digest stem plus the fixed ".jpg" extension; in particular a
10×10 input yields a 120×120 thumbnail. -/
theorem thumbnail_always_box_jpeg (env : Env) (f : FileHeader) (s : ServerState)
    (interf : List ImageRecord) (w h : Nat)
    (h200 : (processFile env f s interf).2.1 = 200)
    (hd : env.decode f.content = some (w, h)) (hw : 0 < w) (hh : 0 < h) :
    (processFile env f s interf).2.2.thumbDir.head? =
      some (sha256hex f.content ++ ".jpg",
        { width := 120, height := 120, format := "jpeg" }) := by
  obtain ⟨a1, a2, a3, a4, a5, w2, h2, hd2⟩ := processFile_200 env f s interf h200
  have hcc : (w, h) = (w2, h2) := Option.some.inj (hd.symm.trans hd2)
  injection hcc with e1 e2
  subst e1
  subst e2
  rw [processFile_ok_eval env f s interf w h a1 a2 a3 a4 a5 hd]
  simp [thumbNameOf_storedName, imagingThumbnailDims, hw.ne', hh.ne']

theorem thumbnail_always_box_jpeg_witness :
    (processFile env10 wJpg state0 []).2.2.thumbDir.head? =
      some (sha256hex wJpg.content ++ ".jpg",
        { width := 120, height := 120, format := "jpeg" }) :=
  thumbnail_always_box_jpeg env10 wJpg state0 [] 10 10 (by decide) (by decide)
    (by decide) (by decide)

/-- C7: the digest reported by a successful upload is the hex-encoded
SHA-256 of exactly the uploaded bytes, and it is deterministic: any two
successful uploads of the same byte sequence — under any declared
filename, against any state and at any time — report the same response,
hence the same digest. -/
theorem digest_sha256_deterministic (env : Env) (f : FileHeader) (s : ServerState)
    (interf : List ImageRecord)
    (h : (processFile env f s interf).2.1 = 200) :
    (processFile env f s interf).1 =
      [("message", "File uploaded successfully"), ("sha256sum", sha256hex f.content)] ∧
    ∀ env2 g s2 interf2, g.content = f.content →
      (processFile env2 g s2 interf2).2.1 = 200 →
      (processFile env2 g s2 interf2).1 = (processFile env f s interf).1 := by
  refine ⟨processFile_200_resp env f s interf h, ?_⟩
  intro env2 g s2 interf2 hgc h2
  rw [processFile_200_resp env2 g s2 interf2 h2, processFile_200_resp env f s interf h, hgc]

theorem digest_sha256_deterministic_witness :
    (processFile env10 wJpg state0 []).1 =
      [("message", "File uploaded successfully"), ("sha256sum", sha256hex wJpg.content)] :=
  (digest_sha256_deterministic env10 wJpg state0 [] (by decide)).1

/-- C8 counterexample: a request with two files where the first fails
produces a response array with a single object, not one object per
uploaded file — files after the first failure are absent from the
response. -/
theorem response_truncated_on_failure :
    [wText, wJpg].length = 2 ∧
    (uploadHandler env10 [wText, wJpg] state0).1.length = 1 := by
  decide

/-- C8 amended: the response body is a JSON array with one object per
processed file — the files up to and including the first non-success, so
at most one object per uploaded file, and exactly one each when the
overall status is 200 — and every object contains the field `filename`
together with either `message` and `sha256sum` or `error`. -/
theorem response_shape (env : Env) (files : List FileHeader) (s : ServerState) :
    (∀ r ∈ (uploadHandler env files s).1,
      hasKey r "filename" = true ∧
      ((hasKey r "message" = true ∧ hasKey r "sha256sum" = true) ∨
        hasKey r "error" = true)) ∧
    (uploadHandler env files s).1.length ≤ files.length ∧
    ((uploadHandler env files s).2.1 = 200 →
      (uploadHandler env files s).1.length = files.length) := by
  induction files generalizing s with
  | nil => simp [uploadHandler]
  | cons f rest ih =>
      rw [uploadHandler_cons]
      by_cases hc : (processFile env f s []).2.1 = 200
      · rw [if_pos hc]
        obtain ⟨is1, is2, is3⟩ := ih (processFile env f s []).2.2
        refine ⟨?_, ?_, ?_⟩
        · intro r hr
          rcases List.mem_cons.mp hr with rfl | hr2
          · refine ⟨by simp [hasKey], ?_⟩
            rcases processFile_resp_cases env f s [] with ⟨m, hm⟩ | hok
            · right; simp [hasKey, hm]
            · left; simp [hasKey, hok]
          · exact is1 r hr2
        · simpa using Nat.succ_le_succ is2
        · intro hst
          simp only [List.length_cons, is3 hst]
      · rw [if_neg hc]
        refine ⟨?_, ?_, ?_⟩
        · intro r hr
          rcases List.mem_cons.mp hr with rfl | hr2
          · refine ⟨by simp [hasKey], ?_⟩
            rcases processFile_resp_cases env f s [] with ⟨m, hm⟩ | hok
            · right; simp [hasKey, hm]
            · left; simp [hasKey, hok]
          · simp at hr2
        · simp only [List.length_singleton, List.length_cons]
          exact Nat.succ_le_succ (Nat.zero_le _)
        · intro hst
          exact absurd hst hc

theorem response_shape_witness :
    (uploadHandler env10 [wJpg] state0).1.length = 1 :=
  (response_shape env10 [wJpg] state0).2.2 (by decide)

/-- C9 amended: any possible result of the recent-uploads query has at
most `n` records and is ordered by upload timestamp descending; the query
imposes no tie-break — it has no secondary sort key, so rows with equal
timestamps may come back in any order. -/
theorem getRecentImages_bounded_sorted (table : List ImageRecord) (n : Nat)
    (out : List ImageInfo) (h : getRecentImages table n out) :
    out.length ≤ n ∧ out.Pairwise (fun a b => b.uploadDate ≤ a.uploadDate) := by
  obtain ⟨rows, ⟨sorted, hperm, hsort, hrow⟩, hout⟩ := h
  subst hout
  subst hrow
  constructor
  · rw [List.length_map]
    exact List.length_take_le n sorted
  · exact List.Pairwise.map toImageInfo (fun a b hab => hab)
      ((hsort.sublist (List.take_sublist n sorted)))

theorem getRecentImages_bounded_sorted_witness :
    [toImageInfo recA].length ≤ 1 ∧
    [toImageInfo recA].Pairwise (fun a b => b.uploadDate ≤ a.uploadDate) :=
  getRecentImages_bounded_sorted [recA] 1 [toImageInfo recA]
    ⟨[recA], ⟨[recA], List.Perm.refl _, by simp, rfl⟩, rfl⟩

/-- C9 counterexample: with two rows sharing one upload timestamp, the
result that returns the smaller surrogate key first is a legitimate result
of the query (which has no secondary sort key), so ties are not guaranteed
to be broken by surrogate key descending. -/
theorem recent_ties_not_id_desc :
    getRecentImages [recA, recB] 2 [toImageInfo recA, toImageInfo recB] ∧
    ¬ [toImageInfo recA, toImageInfo recB].Pairwise
        (fun a b => a.uploadDate = b.uploadDate → b.id ≤ a.id) := by
  constructor
  · exact ⟨[recA, recB], ⟨[recA, recB], List.Perm.refl _, by decide, rfl⟩, rfl⟩
  · intro hp
    have h1 := (List.pairwise_cons.mp hp).1 (toImageInfo recB) (by simp)
    exact absurd (h1 rfl) (by decide)

/-- C10: a zero-byte uploaded file makes the single 512-byte read fail
with EOF, so the pipeline returns the internal-error result with HTTP
status 500 — not a 400 validation rejection — and the state is unchanged:
nothing is written and no record is created. -/
theorem empty_file_500 (env : Env) (f : FileHeader) (s : ServerState)
    (interf : List ImageRecord) (h : f.content = []) :
    processFile env f s interf = ([("error", "Failed to read file")], 500, s) := by
  unfold processFile
  rw [if_neg (by rw [h]; decide), if_pos h]

theorem empty_file_500_witness :
    processFile env10 wEmpty state0 [] = ([("error", "Failed to read file")], 500, state0) :=
  empty_file_500 env10 wEmpty state0 [] rfl

end Uploader
